import Mathlib

/-!
Shallow embedding of the price/row extraction and normalization pipeline of
`src/ryanair_scraper.py` (ryantrak), together with proofs of the spec claims.

Strings are modelled as `List Char`.  Python whitespace handling (`str.split`,
`str.strip`, regex `\s`) is modelled over the ASCII whitespace set, and regex
`\d` / `\w` over the ASCII digit / word-character sets.
-/

namespace Ryantrak

/-- Strings of the Python program, as lists of characters. -/
abbrev Str := List Char

/-- The ASCII whitespace characters recognised by Python's `str.split()`,
`str.strip()` and the regex class `\s`: space, tab, newline, carriage
return, vertical tab and form feed. -/
def isPySpace (c : Char) : Bool :=
  c == ' ' || c == '\t' || c == '\n' || c == '\r' || c == '\x0b' || c == '\x0c'

/-- Accumulator-style worker for Python's `str.split()` with no separator
argument: splits on runs of whitespace and drops empty pieces.  `acc` holds
the characters of the current token in reverse order. -/
def splitWsAux : Str → Str → List Str
  | acc, [] => if acc = [] then [] else [acc.reverse]
  | acc, c :: rest =>
    if isPySpace c then
      if acc = [] then splitWsAux [] rest
      else acc.reverse :: splitWsAux [] rest
    else splitWsAux (c :: acc) rest

/-- Python `text.split()` (no separator): whitespace-separated tokens. -/
def splitWs (s : Str) : List Str := splitWsAux [] s

/-- Python `" ".join(tokens)`. -/
def joinSp : List Str → Str
  | [] => []
  | [t] => t
  | t :: t2 :: ts => t ++ ' ' :: joinSp (t2 :: ts)

/-- `RyanairScraper._clean_text`: `" ".join(text.split())`. -/
def clean_text (s : Str) : Str := joinSp (splitWs s)

/-- Python `str.strip()`: remove leading and trailing whitespace. -/
def stripStr (s : Str) : Str :=
  ((s.dropWhile isPySpace).reverse.dropWhile isPySpace).reverse

/-! ### The price regular expressions of `_extract_price_from_text`

The four patterns of the source, hand-compiled to deterministic matchers
(greedy semantics with the only reachable backtracking — dropping the
optional decimal part in front of a failed trailing word boundary —
performed explicitly):

  1. symbol `\s*` amount        : a currency symbol, optional whitespace,
     digits, optional `[.,]` plus two digits;
  2. amount `\s*` symbol;
  3. `\b` code `\s*` amount `\b` with code in GBP, EUR, USD;
  4. amount `\s*` code `\b`.
-/

/-- The currency symbols of the alternation in patterns 1 and 2. -/
def currencySymbol (c : Char) : Bool := c == '£' || c == '€' || c == '$'

/-- ASCII word character, for the regex `\b` boundaries. -/
def isWordChar (c : Char) : Bool := c.isAlpha || c.isDigit || c == '_'

/-- The optional decimal part `(?:[.,]\d{2})?`: the matched piece and the
remainder (greedy — taken whenever it is present). -/
def decimalPart : Str → (Str × Str)
  | c :: d1 :: d2 :: rest =>
    if (c == '.' || c == ',') && d1.isDigit && d2.isDigit
    then ([c, d1, d2], rest)
    else ([], c :: d1 :: d2 :: rest)
  | s => ([], s)

/-- `\b` before a word character at the current position: holds at the start
of the text or after a non-word character. -/
def boundaryBefore : Option Char → Bool
  | none => true
  | some c => !isWordChar c

/-- `\b` after a word character: holds at the end of the text or before a
non-word character. -/
def boundaryAfter : Str → Bool
  | [] => true
  | c :: _ => !isWordChar c

/-- The alternation `(?:GBP|EUR|USD)`. -/
def matchCode : Str → Option (Str × Str)
  | c1 :: c2 :: c3 :: rest =>
    if [c1, c2, c3] = "GBP".data || [c1, c2, c3] = "EUR".data
        || [c1, c2, c3] = "USD".data
    then some ([c1, c2, c3], rest)
    else none
  | _ => none

/-- Pattern 1 at the current position. -/
def p1At (_prev : Option Char) : Str → Option Str
  | [] => none
  | c :: rest =>
    if currencySymbol c then
      let ws := rest.takeWhile isPySpace
      let r1 := rest.dropWhile isPySpace
      let ds := r1.takeWhile Char.isDigit
      let r2 := r1.dropWhile Char.isDigit
      if ds = [] then none
      else some (c :: (ws ++ ds ++ (decimalPart r2).1))
    else none

/-- Pattern 2 at the current position.  When the optional decimal part is
present the remainder starts with `.` or `,`, so the decimal-free branch of
the backtracking can never reach a symbol and is omitted. -/
def p2At (_prev : Option Char) (s : Str) : Option Str :=
  let ds := s.takeWhile Char.isDigit
  let r1 := s.dropWhile Char.isDigit
  if ds = [] then none
  else
    let dec := (decimalPart r1).1
    let r2 := (decimalPart r1).2
    let ws := r2.takeWhile isPySpace
    match r2.dropWhile isPySpace with
    | c :: _ => if currencySymbol c then some (ds ++ dec ++ ws ++ [c]) else none
    | [] => none

/-- Pattern 3 at the current position.  If the decimal part is present but
the trailing `\b` fails after it, the match backtracks to the decimal-free
form, whose trailing boundary (before `.` or `,`) always holds. -/
def p3At (prev : Option Char) (s : Str) : Option Str :=
  if boundaryBefore prev then
    match matchCode s with
    | none => none
    | some (code, r0) =>
      let ws := r0.takeWhile isPySpace
      let r1 := r0.dropWhile isPySpace
      let ds := r1.takeWhile Char.isDigit
      let r2 := r1.dropWhile Char.isDigit
      if ds = [] then none
      else
        let dec := (decimalPart r2).1
        let r3 := (decimalPart r2).2
        if dec ≠ [] then
          if boundaryAfter r3 then some (code ++ ws ++ ds ++ dec)
          else some (code ++ ws ++ ds)
        else if boundaryAfter r2 then some (code ++ ws ++ ds)
        else none
  else none

/-- Pattern 4 at the current position.  As in pattern 2, a present decimal
part leaves `.` or `,` at the head of the remainder, so no decimal-free
backtracking branch can succeed. -/
def p4At (_prev : Option Char) (s : Str) : Option Str :=
  let ds := s.takeWhile Char.isDigit
  let r1 := s.dropWhile Char.isDigit
  if ds = [] then none
  else
    let dec := (decimalPart r1).1
    let r2 := (decimalPart r1).2
    let ws := r2.takeWhile isPySpace
    match matchCode (r2.dropWhile isPySpace) with
    | some (code, r3) =>
      if boundaryAfter r3 then some (ds ++ dec ++ ws ++ code) else none
    | none => none

/-- Python `re.search`: try the matcher at each position from the left,
returning the first (leftmost) match.  `prev` is the character before the
current position, for the `\b` assertions. -/
def searchPat (m : Option Char → Str → Option Str) : Option Char → Str → Option Str
  | prev, [] => m prev []
  | prev, c :: rest =>
    match m prev (c :: rest) with
    | some r => some r
    | none => searchPat m (some c) rest

/-- `RyanairScraper._extract_price_from_text`: clean the text, then try the
four patterns in order; the first pattern that matches anywhere wins, and
its match is returned stripped; otherwise the empty string. -/
def extract_price_from_text (text : Str) : Str :=
  let cleaned := clean_text text
  if cleaned = [] then []
  else
    match searchPat p1At none cleaned with
    | some m => stripStr m
    | none =>
      match searchPat p2At none cleaned with
      | some m => stripStr m
      | none =>
        match searchPat p3At none cleaned with
        | some m => stripStr m
        | none =>
          match searchPat p4At none cleaned with
          | some m => stripStr m
          | none => []

/-! ### Data model -/

/-- The `SearchConfig` dataclass (the URL-building method is not needed by
the claims). -/
structure SearchConfig where
  origin : Str
  destination : Str
  depart_date : Str
  return_date : Str
  adults : Nat
  currency : Str
deriving DecidableEq

/-- The `FlightOption` dataclass. -/
structure FlightOption where
  price : Option Str
  depart_time : Str
  return_time : Str
  currency : Str
  status : Str
  flight_date : Str
deriving DecidableEq

/-- Replace only the `flight_date` field, as the dict-comprehension of the
date-reassignment pass does (every other field copied verbatim). -/
def setFlightDate (o : FlightOption) (d : Str) : FlightOption :=
  ⟨o.price, o.depart_time, o.return_time, o.currency, o.status, d⟩

/-! ### Driver model

Selenium calls are modelled by oracles.  A `WebDriverException` raised by a
call whose surrounding code catches it and continues is folded into the
oracle's `none`/failure answer; faults that escape to the boundary of
`fetch_return_flights` are modelled by the phase outcome below. -/

/-- The result of reading one attribute of an element:
`element.get_attribute` either raises (`fault`, caught at the call site),
returns `None`, or returns a string. -/
inductive AttrRead where
  | fault
  | value (v : Option Str)

/-- A web element: its visible text and its attributes. -/
structure Elem where
  text : Str
  attr : String → AttrRead

/-- The value the `try/except` around `element.get_attribute` leaves in
`value`: a raised `WebDriverException` becomes `None`. -/
def attrValue (e : Elem) (a : String) : Option Str :=
  match e.attr a with
  | .fault => none
  | .value v => v

/-- The attribute list of `_extract_element_text`, in declared order. -/
def attrNames : List String := ["textContent", "innerText", "aria-label", "data-label"]

/-- The candidate list of `_extract_element_text`: the visible text, then
each attribute value that is truthy (present and non-empty). -/
def candidatesOf (e : Elem) : List Str :=
  e.text :: attrNames.filterMap (fun a =>
    match attrValue e a with
    | none => none
    | some v => if v = [] then none else some v)

/-- The final loop of `_extract_element_text`: the first candidate whose
cleaned form is non-empty, else the empty string. -/
def firstClean : List Str → Str
  | [] => []
  | c :: rest => if clean_text c = [] then firstClean rest else clean_text c

/-- `RyanairScraper._extract_element_text`. -/
def extract_element_text (e : Elem) : Str := firstClean (candidatesOf e)

/-- A flight-card element: the element itself plus the oracles for
`find_element` / `find_elements` scoped to it (`none` models a raised
`WebDriverException`, which the callers catch and skip). -/
structure Card where
  el : Elem
  sub : String → Option Elem
  subs : String → Option (List Elem)

/-- Generic first-success resolution over an ordered candidate list: the
loop shape shared by `_extract_text`, `_extract_times`, `_extract_page_text`
and `_locate_flight_cards` (try each candidate in declared order, first
candidate with a result wins). -/
def chainResolve {α β : Type} (env : α → Option β) : List α → Option β
  | [] => none
  | s :: rest =>
    match env s with
    | some b => some b
    | none => chainResolve env rest

/-- The candidates a run of `chainResolve` actually attempts: every
candidate up to and including the first successful one. -/
def chainAttempts {α β : Type} (env : α → Option β) : List α → List α
  | [] => []
  | s :: rest =>
    match env s with
    | some _ => [s]
    | none => s :: chainAttempts env rest

/-- One step of `_extract_text`: find the sub-element (a fault skips the
candidate) and keep it only when its extracted text is non-empty. -/
def textEnv (card : Card) (sel : String) : Option Str :=
  match card.sub sel with
  | none => none
  | some el =>
    if extract_element_text el = [] then none else some (extract_element_text el)

/-- `RyanairScraper._extract_text`. -/
def extract_text (card : Card) (sels : List String) : Str :=
  (chainResolve (textEnv card) sels).getD []

/-- One step of `_extract_times`: find the sub-elements (a fault skips the
candidate), keep the stripped non-empty texts, succeed when some remain. -/
def timesEnv (card : Card) (sel : String) : Option (List Str) :=
  match card.subs sel with
  | none => none
  | some els =>
    let times := els.filterMap (fun e =>
      if stripStr e.text = [] then none else some (stripStr e.text))
    if times = [] then none else some times

/-- `RyanairScraper._extract_times`. -/
def extract_times (card : Card) (sels : List String) : List Str :=
  (chainResolve (timesEnv card) sels).getD []

/-- The page after navigation: oracles for the waits and element queries of
`_locate_flight_cards`, `_extract_page_text` and the body lookup.
A `False`/`none` answer models a timeout or fault that the call site
catches and skips. -/
structure PageModel where
  cardPresent : String → Bool
  cardElems : String → List Card
  pricePresent : String → Bool
  priceElems : String → List Elem
  body : Option Elem

/-- The card selector chain of `_locate_flight_cards`, in declared order. -/
def card_selectors : List String :=
  ["[data-ref=\x27flight-card\x27]",
   "[data-testid=\x27flight-card\x27]",
   ".flight-card",
   "[data-ref=\x27flight-card-container\x27]"]

/-- The price selector chain of `fetch_return_flights`, in declared order. -/
def price_selectors : List String :=
  ["[data-ref=\x27price\x27]",
   "[data-testid=\x27price\x27]",
   "[data-testid=\x27price-value\x27]",
   "[data-testid=\x27flight-price\x27]",
   "[data-e2e=\x27flight-price\x27]",
   ".flight-card__price",
   ".flight-price",
   ".price"]

/-- The time selector chain of `fetch_return_flights`, in declared order. -/
def time_selectors : List String :=
  ["[data-ref=\x27flight-time\x27]",
   "[data-testid=\x27flight-time\x27]",
   ".flight-card__time",
   ".flight-time",
   ".flight-info__hour"]

/-- One step of `_locate_flight_cards`: a timed-out wait skips the
candidate; a successful wait followed by an empty `find_elements` also
falls through to the next candidate. -/
def cardsEnv (pg : PageModel) (sel : String) : Option (List Card) :=
  if pg.cardPresent sel then
    if (pg.cardElems sel).isEmpty then none else some (pg.cardElems sel)
  else none

/-- `RyanairScraper._locate_flight_cards`. -/
def locate_flight_cards (pg : PageModel) : List Card :=
  (chainResolve (cardsEnv pg) card_selectors).getD []

/-- The first element of a list with non-empty extracted text: the inner
loop of `_extract_page_text`. -/
def firstElemText : List Elem → Option Str
  | [] => none
  | e :: rest =>
    if extract_element_text e = [] then firstElemText rest
    else some (extract_element_text e)

/-- One step of `_extract_page_text`. -/
def pageTextEnv (pg : PageModel) (sel : String) : Option Str :=
  if pg.pricePresent sel then firstElemText (pg.priceElems sel) else none

/-- `RyanairScraper._extract_page_text`. -/
def extract_page_text (pg : PageModel) (sels : List String) : Str :=
  (chainResolve (pageTextEnv pg) sels).getD []

/-- The per-card body of the assembly loop in `fetch_return_flights`
(lines 321–340): price via the scoped selector chain with a regex fallback
over the card's own text, up to two times, status from price presence,
`flight_date` initially the departure date. -/
def assembleCard (cfg : SearchConfig) (card : Card) : FlightOption :=
  let priceSel := extract_text card price_selectors
  let price_text :=
    if priceSel = [] then extract_price_from_text (extract_element_text card.el)
    else priceSel
  let time_texts := extract_times card time_selectors
  ⟨if price_text = [] then none else some price_text,
   time_texts.getD 0 [],
   time_texts.getD 1 [],
   cfg.currency,
   if price_text = [] then "missing-price".data else "ok".data,
   cfg.depart_date⟩

/-- The list comprehension of the date-reassignment pass, unfolded: rebuild
each option with `flight_date` set by the position `i` relative to the
midpoint, keeping every other field. -/
def assignByIdx (cfg : SearchConfig) (midpoint : Nat) : Nat → List FlightOption → List FlightOption
  | _, [] => []
  | i, o :: rest =>
    setFlightDate o (if i < midpoint then cfg.depart_date else cfg.return_date)
      :: assignByIdx cfg midpoint (i + 1) rest

/-- The date-reassignment pass of `fetch_return_flights` (lines 341–361):
when more than one option was assembled and the count is even, the first
half keeps the departure date and the second half gets the return date;
otherwise the list is returned unchanged. -/
def reassign_dates (cfg : SearchConfig) (options : List FlightOption) : List FlightOption :=
  if 1 < options.length ∧ options.length % 2 = 0 then
    assignByIdx cfg (options.length / 2) 0 options
  else options

/-- Outcome of `driver.get`: normal return, `TimeoutException` (caught), or
another `WebDriverException` (not caught at this point of the source). -/
inductive NavResult where
  | ok
  | timeout
  | fault
deriving DecidableEq

/-- Outcome of the post-navigation phase (the big `try` block): a
`TimeoutException` or `WebDriverException` escaping to the boundary, or a
normal run against the page model. -/
inductive PhaseResult where
  | timeout
  | fault
  | page (pg : PageModel)

/-- A driver behavior for one call of `fetch_return_flights`. -/
structure FetchEnv where
  nav : NavResult
  phase : PhaseResult

/-- An exception that escapes `fetch_return_flights` to its caller. -/
inductive Crash where
  | webDriverException
deriving DecidableEq

/-- The synthetic single-option result built at each failure exit. -/
def synthetic (cfg : SearchConfig) (st : Str) : FlightOption :=
  ⟨none, [], [], cfg.currency, st, cfg.depart_date⟩

/-- The no-cards price lookup of `fetch_return_flights` (lines 297–308):
first the page-wide price-selector chain; if it yields nothing, the regex
extraction over the body element's text (an unreachable body leaves the
text empty). -/
def page_fallback_price (pg : PageModel) : Str :=
  let price0 := extract_page_text pg price_selectors
  if price0 = [] then
    match pg.body with
    | none => []
    | some b => extract_price_from_text (extract_element_text b)
  else price0

/-- `RyanairScraper.fetch_return_flights`. -/
def fetch_return_flights (cfg : SearchConfig) (env : FetchEnv) :
    Except Crash (List FlightOption) :=
  match env.nav with
  | .timeout => .ok [synthetic cfg ("timeout".data)]
  | .fault => .error .webDriverException
  | .ok =>
    match env.phase with
    | .timeout => .ok [synthetic cfg ("missing-price".data)]
    | .fault => .ok [synthetic cfg ("webdriver-error".data)]
    | .page pg =>
      let flight_cards := locate_flight_cards pg
      if flight_cards.isEmpty then
        let price_text := page_fallback_price pg
        .ok [⟨if price_text = [] then none else some price_text,
             [], [], cfg.currency,
             if price_text = [] then "missing-price".data else "ok".data,
             cfg.depart_date⟩]
      else
        .ok (reassign_dates cfg (flight_cards.map (assembleCard cfg)))

/-! ### CSV appending -/

/-- The `CSV_HEADERS` constant. -/
def CSV_HEADERS : List Str :=
  ["timestamp_utc".data, "origin".data, "destination".data, "departure_date".data,
   "arrival_date".data, "price".data, "currency".data, "status".data]

/-- One CSV row as handed to `csv.DictWriter.writerow` by `main`, keyed by
the fixed column schema. -/
structure Row where
  timestamp_utc : Str
  origin : Str
  destination : Str
  departure_date : Str
  arrival_date : Str
  price : Str
  currency : Str
  status : Str

/-- Whether the `csv` module quotes a field (default `QUOTE_MINIMAL`). -/
def needsQuote (f : Str) : Bool :=
  f.any (fun c => c == ',' || c == '"' || c == '\n' || c == '\r')

/-- One field as written by the `csv` module: quoted with doubled quotes
when it contains a delimiter, quote or newline. -/
def csvField (f : Str) : Str :=
  if needsQuote f then
    '"' :: (f.map (fun c => if c = '"' then ['"', '"'] else [c])).flatten ++ ['"']
  else f

/-- One record as written by `csv.DictWriter` for `CSV_HEADERS`. -/
def formatRow (r : Row) : Str :=
  List.intercalate [','] ([r.timestamp_utc, r.origin, r.destination, r.departure_date,
    r.arrival_date, r.price, r.currency, r.status].map csvField)

/-- The header record written by `DictWriter.writeheader`. -/
def headerLine : Str := List.intercalate [','] (CSV_HEADERS.map csvField)

/-- `append_csv`: the target file as a list of records (`none` when the
file does not exist at call time); the call opens in append mode, writes
the header first iff the file did not exist, then writes the one row. -/
def append_csv (file : Option (List Str)) (row : Row) : List Str :=
  match file with
  | none => [headerLine, formatRow row]
  | some lines => lines ++ [formatRow row]

/-! ### The Text Normalizer applied to an optional value -/

/-- The Python error raised by `None.split()`. -/
inductive PyError where
  | attributeError
deriving DecidableEq

/-- The body of `_clean_text`, `" ".join(text.split())`, applied to a
present-or-absent argument: on `None` the attribute lookup `None.split`
raises `AttributeError`; on a string it returns the normalized text. -/
def clean_text_py : Option Str → Except PyError Str
  | none => .error .attributeError
  | some s => .ok (clean_text s)

/-! ### Property checkers used by the claim statements -/

/-- The first character, if any, is not whitespace. -/
def headNonWs (s : Str) : Bool :=
  match s.head? with
  | none => true
  | some c => !isPySpace c

/-- The last character, if any, is not whitespace. -/
def lastNonWs (s : Str) : Bool :=
  match s.getLast? with
  | none => true
  | some c => !isPySpace c

/-! ### Concrete fixtures used by witnesses and counterexamples -/

/-- The default route of `parse_args`, as a concrete `SearchConfig`. -/
def cfg0 : SearchConfig :=
  ⟨"STN".data, "BGY".data, "2026-08-22".data, "2026-09-04".data, 1, "GBP".data⟩

/-- A concrete assembled option. -/
def sampleOption : FlightOption :=
  ⟨some ("£19.99".data), "06:25".data, "09:40".data, "GBP".data, "ok".data,
   "2026-08-22".data⟩

/-- A concrete element whose attribute reads all fault. -/
def elemHi : Elem := ⟨"hi there".data, fun _ => AttrRead.fault⟩

/-- A page body whose text contains no currency pattern. -/
def bodyElem : Elem := ⟨"no currency here".data, fun _ => AttrRead.value none⟩

/-- A page-level price element whose text is not a currency amount. -/
def priceElemHello : Elem := ⟨"hello".data, fun _ => AttrRead.value none⟩

/-- A page with no flight cards, one page-level price element of text
`hello` under the first price selector, and a body with no currency text. -/
def pg0 : PageModel :=
  ⟨fun _ => false, fun _ => [],
   fun _ => true,
   fun s => if s = "[data-ref=\x27price\x27]" then [priceElemHello] else [],
   some bodyElem⟩

/-- A resolution environment over `Nat` candidates in which only the
candidate `2` resolves. -/
def c6_env : Nat → Option Nat := fun n => if n = 2 then some 99 else none

/-! ### Claims -/

/-- Claim C4: each call of the CSV appender appends exactly one data row,
and writes the header row first if and only if the file does not exist at
call time: a fresh path gets the header plus the row; an existing file gets
exactly the one row appended; two appends to a fresh path give exactly 3
records with the header starting with the fixed column prefix, and a third
append adds one record without duplicating the header. -/
theorem c4_append_csv_header (r1 r2 r3 : Row) :
    append_csv none r1 = [headerLine, formatRow r1]
  ∧ (∀ lines, append_csv (some lines) r2 = lines ++ [formatRow r2])
  ∧ (append_csv (some (append_csv none r1)) r2).length = 3
  ∧ append_csv (some (append_csv none r1)) r2 = [headerLine, formatRow r1, formatRow r2]
  ∧ append_csv (some (append_csv (some (append_csv none r1)) r2)) r3
      = [headerLine, formatRow r1, formatRow r2, formatRow r3]
  ∧ headerLine = "timestamp_utc,origin,destination,departure_date".data
      ++ ",arrival_date,price,currency,status".data :=
  ⟨rfl, fun _ => rfl, rfl, rfl, rfl, by decide⟩

/-- Claim C9, counterexample: applying the body of the Text Normalizer to an
absent input does not yield the empty string — `None.split()` raises an
`AttributeError`. -/
theorem c9_clean_text_absent_cex :
    clean_text_py none = Except.error PyError.attributeError
  ∧ clean_text_py none ≠ Except.ok [] :=
  ⟨rfl, fun h => Except.noConfusion h⟩

/-- Claim C9 (amended): the Text Normalizer is a total function over
strings, with no error conditions; applied to an absent input it raises an
`AttributeError` rather than yielding the empty string (call sites filter
absent values before calling it). -/
theorem c9_clean_text_total :
    (∀ s : Str, clean_text_py (some s) = Except.ok (clean_text s))
  ∧ clean_text [] = []
  ∧ clean_text_py none = Except.error PyError.attributeError :=
  ⟨fun _ => rfl, rfl, rfl⟩

/-- Claim C2: the Price Extractor returns the first match found by the
first pattern in its fixed ordered list that matches anywhere in the
whitespace-normalized text, trimmed, or the empty string when no pattern
matches; in particular the three example inputs of the spec. -/
theorem c2_price_extractor :
    extract_price_from_text ("Fly now for £19.99!".data) = "£19.99".data
  ∧ extract_price_from_text ("Total price 24.50 EUR".data) = "24.50 EUR".data
  ∧ extract_price_from_text ("no price here".data) = []
  ∧ (∀ t m, searchPat p1At none (clean_text t) = some m →
      extract_price_from_text t = stripStr m)
  ∧ (∀ t, searchPat p1At none (clean_text t) = none →
      searchPat p2At none (clean_text t) = none →
      searchPat p3At none (clean_text t) = none →
      searchPat p4At none (clean_text t) = none →
      extract_price_from_text t = []) := by
  refine ⟨by decide, by decide, by decide, ?_, ?_⟩
  · intro t m h
    by_cases hc : clean_text t = []
    · rw [hc] at h
      exact absurd h (by simp [searchPat, p1At])
    · simp only [extract_price_from_text, if_neg hc, h]
  · intro t h1 h2 h3 h4
    by_cases hc : clean_text t = []
    · simp only [extract_price_from_text, if_pos hc]
    · simp only [extract_price_from_text, if_neg hc, h1, h2, h3, h4]

/-- Claim C2, witness: the no-match branch applied at a concrete input. -/
theorem c2_price_extractor_witness :
    extract_price_from_text ("xyz".data) = [] :=
  c2_price_extractor.2.2.2.2 ("xyz".data) (by decide) (by decide) (by decide) (by decide)

/-- Claim C6: for every ordered candidate list and every resolution
environment in which every candidate before position `k` fails and the
candidate at `k` resolves, the chain resolver returns candidate `k`'s
resolution, and the attempted candidates are exactly the first `k + 1`
candidates in declared order (no silent skip). -/
theorem c6_chain_first_success {α β : Type} (env : α → Option β) (cands : List α)
    (k : Nat) (x : α) (v : β) (hx : cands[k]? = some x)
    (hbefore : ∀ j, j < k → ∀ y, cands[j]? = some y → env y = none)
    (hk : env x = some v) :
    chainResolve env cands = some v ∧ chainAttempts env cands = cands.take (k + 1) := by
  induction cands generalizing k with
  | nil => simp at hx
  | cons c rest ih =>
    cases k with
    | zero =>
      rw [List.getElem?_cons_zero] at hx
      have hcx : c = x := by injection hx
      subst hcx
      refine ⟨?_, ?_⟩
      · simp [chainResolve, hk]
      · simp [chainAttempts, hk]
    | succ k =>
      have hc : env c = none := hbefore 0 (Nat.succ_pos k) c List.getElem?_cons_zero
      rw [List.getElem?_cons_succ] at hx
      have hrest := ih k hx
        (fun j hj y hy => hbefore (j + 1) (Nat.succ_lt_succ hj) y
          (by rwa [List.getElem?_cons_succ]))
      refine ⟨?_, ?_⟩
      · simp [chainResolve, hc, hrest.1]
      · simp [chainAttempts, hc, hrest.2, List.take_succ_cons]

/-- Claim C6, witness: a three-candidate chain in which only the third
candidate resolves. -/
theorem c6_chain_first_success_witness :
    chainResolve c6_env [5, 7, 2] = some 99
  ∧ chainAttempts c6_env [5, 7, 2] = [5, 7, 2] :=
  c6_chain_first_success c6_env [5, 7, 2] 2 2 99 rfl
    (by intro j hj y hy
        interval_cases j <;> simp_all [c6_env] <;> omega)
    rfl

/-- The reassignment comprehension preserves length. -/
theorem assignByIdx_length (cfg : SearchConfig) (m : Nat) :
    ∀ (l : List FlightOption) (i : Nat), (assignByIdx cfg m i l).length = l.length := by
  intro l
  induction l with
  | nil => intro i; rfl
  | cons o rest ih =>
    intro i
    simp only [assignByIdx, List.length_cons, ih (i + 1)]

/-- Element `j` of the reassignment comprehension started at index `i`. -/
theorem assignByIdx_getElem (cfg : SearchConfig) (m : Nat) :
    ∀ (l : List FlightOption) (i j : Nat),
      (assignByIdx cfg m i l)[j]? = (l[j]?).map
        (fun o => setFlightDate o (if i + j < m then cfg.depart_date else cfg.return_date)) := by
  intro l
  induction l with
  | nil => intro i j; simp [assignByIdx]
  | cons o rest ih =>
    intro i j
    cases j with
    | zero => simp [assignByIdx]
    | succ j =>
      simp only [assignByIdx, List.getElem?_cons_succ]
      rw [ih (i + 1) j]
      have hij : i + 1 + j = i + (j + 1) := by omega
      rw [hij]

/-- Claim C1: on a list of assembled options (each carrying the departure
date), the date-reassignment pass keeps length and order; when the count is
greater than one and even it rebuilds each record changing only
`flight_date`, to the departure date on the first half and the return date
on the second half; otherwise the list is returned unchanged and every
record keeps the departure date. -/
theorem c1_date_reassignment (cfg : SearchConfig) (opts : List FlightOption)
    (h : ∀ o ∈ opts, o.flight_date = cfg.depart_date) :
    (reassign_dates cfg opts).length = opts.length
  ∧ (1 < opts.length → opts.length % 2 = 0 →
      ∀ i o, opts[i]? = some o →
        (reassign_dates cfg opts)[i]? = some (setFlightDate o
          (if i < opts.length / 2 then cfg.depart_date else cfg.return_date)))
  ∧ (¬ (1 < opts.length ∧ opts.length % 2 = 0) →
      reassign_dates cfg opts = opts
        ∧ ∀ o ∈ reassign_dates cfg opts, o.flight_date = cfg.depart_date) := by
  refine ⟨?_, ?_, ?_⟩
  · unfold reassign_dates
    split
    · exact assignByIdx_length cfg _ opts 0
    · rfl
  · intro h1 h2 i o ho
    rw [reassign_dates, if_pos ⟨h1, h2⟩, assignByIdx_getElem, ho]
    simp
  · intro hnot
    rw [reassign_dates, if_neg hnot]
    exact ⟨rfl, h⟩

/-- Claim C1, witness: the pass applied to four identical assembled
options. -/
theorem c1_date_reassignment_witness :
    (reassign_dates cfg0 [sampleOption, sampleOption, sampleOption, sampleOption]).length
      = [sampleOption, sampleOption, sampleOption, sampleOption].length
  ∧ (reassign_dates cfg0 [sampleOption, sampleOption, sampleOption, sampleOption])[2]?
      = some (setFlightDate sampleOption cfg0.return_date) :=
  ⟨(c1_date_reassignment cfg0 _ (by decide)).1,
   by
    have := (c1_date_reassignment cfg0
        [sampleOption, sampleOption, sampleOption, sampleOption] (by decide)).2.1
        (by decide) (by decide) 2 sampleOption (by decide)
    simpa using this⟩

/-- The Element Text Resolver depends on an element only through its
visible text and the caught attribute values. -/
theorem extract_element_text_congr (e1 e2 : Elem) (htext : e1.text = e2.text)
    (hattr : ∀ a, attrValue e1 a = attrValue e2 a) :
    extract_element_text e1 = extract_element_text e2 := by
  unfold extract_element_text candidatesOf
  rw [htext]
  have hg : (fun a => match attrValue e1 a with
      | none => none
      | some v => if v = [] then none else some v)
    = (fun a => match attrValue e2 a with
      | none => none
      | some v => if v = [] then none else some v) := by
    funext a
    rw [hattr a]
  rw [hg]

/-- Claim C5: the Element Text Resolver treats an attribute-read fault
exactly as an absent attribute (never propagating it), prefers non-empty
normalized visible text over every attribute, and on the spec's example —
empty visible text and `innerText = "  £199.99  "` — resolves to
`£199.99`. -/
theorem c5_element_text_resolver :
    (∀ (text : Str) (f : String → AttrRead) (a0 : String),
        extract_element_text ⟨text, fun a => if a = a0 then AttrRead.fault else f a⟩
          = extract_element_text ⟨text, fun a => if a = a0 then AttrRead.value none else f a⟩)
  ∧ (∀ e : Elem, clean_text e.text ≠ [] → extract_element_text e = clean_text e.text)
  ∧ extract_element_text
      ⟨[], fun a => if a = "innerText" then AttrRead.value (some ("  £199.99  ".data))
                    else AttrRead.value none⟩
      = "£199.99".data := by
  refine ⟨?_, ?_, by decide⟩
  · intro text f a0
    refine extract_element_text_congr _ _ rfl ?_
    intro a
    by_cases h : a = a0 <;> simp [attrValue, h]
  · intro e he
    simp only [extract_element_text, candidatesOf, firstClean, if_neg he]

/-- Claim C5, witness: visible-text priority at a concrete element whose
attribute reads all fault. -/
theorem c5_element_text_resolver_witness :
    extract_element_text elemHi = clean_text ("hi there".data) :=
  c5_element_text_resolver.2.1 elemHi (by decide)

/-- Every token produced by the splitter is non-empty and free of
whitespace characters. -/
theorem splitWsAux_good (s : Str) : ∀ acc, (∀ c ∈ acc, isPySpace c = false) →
    ∀ t ∈ splitWsAux acc s, t ≠ [] ∧ ∀ c ∈ t, isPySpace c = false := by
  induction s with
  | nil =>
    intro acc hacc t ht
    unfold splitWsAux at ht
    split at ht
    · simp at ht
    · next hne =>
      rw [List.mem_singleton] at ht
      subst ht
      refine ⟨by simpa [List.reverse_eq_nil_iff] using hne, ?_⟩
      intro c hc
      exact hacc c (List.mem_reverse.mp hc)
  | cons c rest ih =>
    intro acc hacc t ht
    unfold splitWsAux at ht
    split at ht
    · split at ht
      · exact ih [] (by simp) t ht
      · next hne =>
        rcases List.mem_cons.mp ht with h | h
        · subst h
          refine ⟨by simpa [List.reverse_eq_nil_iff] using hne, ?_⟩
          intro d hd
          exact hacc d (List.mem_reverse.mp hd)
        · exact ih [] (by simp) t h
    · next hcs =>
      refine ih (c :: acc) ?_ t ht
      intro d hd
      rcases List.mem_cons.mp hd with h | h
      · subst h
        simpa using hcs
      · exact hacc d h

/-- Every character of the rejoined text is either the single-space
separator or a non-whitespace token character. -/
theorem joinSp_mem (toks : List Str)
    (h : ∀ t ∈ toks, ∀ c ∈ t, isPySpace c = false) :
    ∀ c ∈ joinSp toks, c = ' ' ∨ isPySpace c = false := by
  induction toks with
  | nil => simp [joinSp]
  | cons t ts ih =>
    cases ts with
    | nil =>
      intro c hc
      exact Or.inr (h t (by simp) c (by simpa [joinSp] using hc))
    | cons t2 ts2 =>
      intro c hc
      simp only [joinSp] at hc
      rcases List.mem_append.mp hc with h1 | h1
      · exact Or.inr (h t (by simp) c h1)
      · rcases List.mem_cons.mp h1 with h2 | h2
        · exact Or.inl h2
        · exact ih (fun u hu d hd => h u (List.mem_cons_of_mem _ hu) d hd) c h2

/-- Prepending a whitespace-free block preserves the no-adjacent-spaces
chain. -/
theorem chain_append_nonspace (t r : Str) (ht : ∀ c ∈ t, isPySpace c = false)
    (hr : List.Chain' (fun a b => a = ' ' → b ≠ ' ') r) :
    List.Chain' (fun a b => a = ' ' → b ≠ ' ') (t ++ r) := by
  induction t with
  | nil => simpa using hr
  | cons c t ih =>
    rw [List.cons_append, List.chain'_cons']
    refine ⟨?_, ih (fun d hd => ht d (List.mem_cons_of_mem _ hd))⟩
    intro y _ hceq
    have hcok := ht c (by simp)
    rw [hceq] at hcok
    simp [isPySpace] at hcok

/-- The head of the rejoined text is the head of the first token. -/
theorem joinSp_head? (t : Str) (ts : List Str) (h : t ≠ []) :
    (joinSp (t :: ts)).head? = t.head? := by
  cases ts with
  | nil => rfl
  | cons t2 ts2 =>
    obtain ⟨c, cs, rfl⟩ := List.exists_cons_of_ne_nil h
    rfl

/-- The rejoined text of good tokens has no two adjacent spaces. -/
theorem joinSp_chain (toks : List Str) (hne : ∀ t ∈ toks, t ≠ [])
    (hsp : ∀ t ∈ toks, ∀ c ∈ t, isPySpace c = false) :
    List.Chain' (fun a b => a = ' ' → b ≠ ' ') (joinSp toks) := by
  induction toks with
  | nil => simp [joinSp, List.chain'_nil]
  | cons t ts ih =>
    cases ts with
    | nil =>
      have h0 := chain_append_nonspace t [] (fun c hc => hsp t (by simp) c hc) List.chain'_nil
      simpa [joinSp] using h0
    | cons t2 ts2 =>
      show List.Chain' _ (t ++ ' ' :: joinSp (t2 :: ts2))
      refine chain_append_nonspace t _ (fun c hc => hsp t (by simp) c hc) ?_
      rw [List.chain'_cons']
      constructor
      · intro y hy _ hy2
        rw [joinSp_head? t2 ts2 (hne t2 (by simp))] at hy
        have ht2 := hsp t2 (by simp) y (List.mem_of_mem_head? hy)
        rw [hy2] at ht2
        simp [isPySpace] at ht2
      · exact ih (fun u hu => hne u (List.mem_cons_of_mem _ hu))
          (fun u hu d hd => hsp u (List.mem_cons_of_mem _ hu) d hd)

/-- The rejoined text of good tokens does not start with whitespace. -/
theorem joinSp_headNonWs (toks : List Str) (hne : ∀ t ∈ toks, t ≠ [])
    (hsp : ∀ t ∈ toks, ∀ c ∈ t, isPySpace c = false) :
    headNonWs (joinSp toks) = true := by
  cases toks with
  | nil => rfl
  | cons t ts =>
    obtain ⟨c, cs, rfl⟩ := List.exists_cons_of_ne_nil (hne t (by simp))
    have hh := joinSp_head? (c :: cs) ts (by simp)
    have hc := hsp (c :: cs) (by simp) c (by simp)
    simp only [headNonWs, hh]
    simp [hc]

/-- A whitespace-free string does not end with whitespace. -/
theorem lastNonWs_of_nonspace (t : Str) (h : ∀ c ∈ t, isPySpace c = false) :
    lastNonWs t = true := by
  rw [lastNonWs]
  cases hl : t.getLast? with
  | none => rfl
  | some c =>
    have hmem : c ∈ t := by
      rw [List.getLast?_eq_head?_reverse] at hl
      exact List.mem_reverse.mp (List.mem_of_mem_head? hl)
    simp [h c hmem]

/-- The rejoined text of good tokens does not end with whitespace. -/
theorem joinSp_lastNonWs (toks : List Str) (hne : ∀ t ∈ toks, t ≠ [])
    (hsp : ∀ t ∈ toks, ∀ c ∈ t, isPySpace c = false) :
    lastNonWs (joinSp toks) = true := by
  induction toks with
  | nil => rfl
  | cons t ts ih =>
    cases ts with
    | nil => exact lastNonWs_of_nonspace t (fun c hc => hsp t (by simp) c hc)
    | cons t2 ts2 =>
      have hrest := ih (fun u hu => hne u (List.mem_cons_of_mem _ hu))
        (fun u hu d hd => hsp u (List.mem_cons_of_mem _ hu) d hd)
      have hjne : joinSp (t2 :: ts2) ≠ [] := by
        obtain ⟨c, cs, hc⟩ := List.exists_cons_of_ne_nil (hne t2 (by simp))
        cases ts2 with
        | nil => simpa [joinSp] using hne t2 (by simp)
        | cons t3 ts3 =>
          subst hc
          simp [joinSp]
      obtain ⟨c, cs, hc⟩ := List.exists_cons_of_ne_nil hjne
      show lastNonWs (t ++ ' ' :: joinSp (t2 :: ts2)) = true
      simp only [lastNonWs] at hrest ⊢
      rw [List.getLast?_append_of_ne_nil t (by simp), hc, List.getLast?_cons_cons]
      rw [hc] at hrest
      exact hrest

/-- Claim C8: for every input string the Text Normalizer's output — the
whitespace-separated tokens rejoined with single spaces — contains no tab
and no newline, has no two adjacent spaces, starts and ends with
non-whitespace, and on the spec's example `"  Hello\n  world \t"` equals
`"Hello world"`. -/
theorem c8_clean_text_normal_form (s : Str) :
    ((clean_text s).all (fun c => !(c == '\t' || c == '\n'))) = true
  ∧ List.Chain' (fun a b => a = ' ' → b ≠ ' ') (clean_text s)
  ∧ headNonWs (clean_text s) = true
  ∧ lastNonWs (clean_text s) = true
  ∧ clean_text ("  Hello\n  world \t".data) = "Hello world".data := by
  have good := splitWsAux_good s [] (by simp)
  have hne : ∀ t ∈ splitWs s, t ≠ [] := fun t ht => (good t ht).1
  have hsp : ∀ t ∈ splitWs s, ∀ c ∈ t, isPySpace c = false := fun t ht => (good t ht).2
  refine ⟨?_, joinSp_chain _ hne hsp, joinSp_headNonWs _ hne hsp,
    joinSp_lastNonWs _ hne hsp, by decide⟩
  rw [List.all_eq_true]
  intro c hc
  rcases joinSp_mem (splitWs s) hsp c hc with h | h
  · subst h
    decide
  · simp only [isPySpace, Bool.or_eq_false_iff, beq_eq_false_iff_ne] at h
    have h1 : c ≠ '\t' := h.1.1.1.1.2
    have h2 : c ≠ '\n' := h.1.1.1.2
    simp [h1, h2]

/-- The price/status pair built from one extracted price text: the price is
present and non-empty exactly when the status is `ok`, and the status is
`ok` or `missing-price`. -/
theorem price_status_shape (B : Str) (price : Option Str) (st : Str)
    (hp : price = if B = [] then none else some B)
    (hs : st = if B = [] then "missing-price".data else "ok".data) :
    ((∃ p, price = some p ∧ p ≠ []) ↔ st = "ok".data)
  ∧ (st = "ok".data ∨ st = "missing-price".data) := by
  subst hp
  subst hs
  by_cases h : B = []
  · rw [if_pos h, if_pos h]
    refine ⟨⟨?_, ?_⟩, Or.inr rfl⟩
    · rintro ⟨p, hp2, -⟩
      cases hp2
    · intro hbad
      exact absurd hbad (by decide)
  · rw [if_neg h, if_neg h]
    exact ⟨⟨fun _ => rfl, fun _ => ⟨B, rfl, h⟩⟩, Or.inl rfl⟩

/-- Field facts about each assembled per-card option: its currency is the
configured one, its price is present and non-empty exactly when its status
is `ok`, and its status is `ok` or `missing-price`. -/
theorem assembleCard_fields (cfg : SearchConfig) (c : Card) :
    (assembleCard cfg c).currency = cfg.currency
  ∧ ((∃ p, (assembleCard cfg c).price = some p ∧ p ≠ [])
      ↔ (assembleCard cfg c).status = "ok".data)
  ∧ ((assembleCard cfg c).status = "ok".data
      ∨ (assembleCard cfg c).status = "missing-price".data) :=
  ⟨rfl,
   price_status_shape
     (if extract_text c price_selectors = [] then
        extract_price_from_text (extract_element_text c.el)
      else extract_text c price_selectors)
     (assembleCard cfg c).price (assembleCard cfg c).status rfl rfl⟩

/-- The date reassignment keeps price, currency and status of each record. -/
theorem mem_assignByIdx (cfg : SearchConfig) (m : Nat) :
    ∀ (l : List FlightOption) (i : Nat) (o : FlightOption), o ∈ assignByIdx cfg m i l →
      ∃ p ∈ l, o.price = p.price ∧ o.currency = p.currency ∧ o.status = p.status := by
  intro l
  induction l with
  | nil =>
    intro i o ho
    simp [assignByIdx] at ho
  | cons q rest ih =>
    intro i o ho
    simp only [assignByIdx] at ho
    rcases List.mem_cons.mp ho with h | h
    · subst h
      exact ⟨q, by simp, rfl, rfl, rfl⟩
    · obtain ⟨p, hp, h1, h2, h3⟩ := ih (i + 1) o h
      exact ⟨p, List.mem_cons_of_mem _ hp, h1, h2, h3⟩

/-- Each record of the reassigned list keeps the price, currency and status
of a record of the input list. -/
theorem mem_reassign (cfg : SearchConfig) (l : List FlightOption) (o : FlightOption)
    (ho : o ∈ reassign_dates cfg l) :
    ∃ p ∈ l, o.price = p.price ∧ o.currency = p.currency ∧ o.status = p.status := by
  unfold reassign_dates at ho
  split at ho
  · exact mem_assignByIdx cfg _ l 0 o ho
  · exact ⟨o, ho, rfl, rfl, rfl⟩

/-- The date-reassignment pass preserves length. -/
theorem reassign_length (cfg : SearchConfig) (l : List FlightOption) :
    (reassign_dates cfg l).length = l.length := by
  unfold reassign_dates
  split
  · exact assignByIdx_length cfg _ l 0
  · rfl

/-- Claim C3, counterexample: a driver whose navigation call raises a
non-timeout `WebDriverException` makes `fetch_return_flights` propagate the
exception to the caller instead of returning a synthetic result — only
`TimeoutException` is caught around `driver.get`. -/
theorem c3_fetch_fault_propagates_cex :
    fetch_return_flights cfg0 ⟨NavResult.fault, PhaseResult.timeout⟩
      = Except.error Crash.webDriverException := rfl

/-- Claim C3 (amended): unless a non-timeout driver fault occurs during the
initial navigation (which propagates), a single call of
`fetch_return_flights` returns a non-empty list whose statuses all lie in
{ok, missing-price, timeout, webdriver-error}; a navigation timeout yields
exactly the one synthetic timeout record, and a timeout or driver fault in
the post-navigation phase yields exactly the one synthetic missing-price or
webdriver-error record. -/
theorem c3_fetch_containment (cfg : SearchConfig) (nav : NavResult) (phase : PhaseResult)
    (h : nav ≠ NavResult.fault) :
    ∃ opts, fetch_return_flights cfg ⟨nav, phase⟩ = Except.ok opts
      ∧ 0 < opts.length
      ∧ (∀ o ∈ opts, o.status = "ok".data ∨ o.status = "missing-price".data
          ∨ o.status = "timeout".data ∨ o.status = "webdriver-error".data)
      ∧ (nav = NavResult.timeout → opts = [synthetic cfg ("timeout".data)])
      ∧ (nav = NavResult.ok → phase = PhaseResult.timeout →
          opts = [synthetic cfg ("missing-price".data)])
      ∧ (nav = NavResult.ok → phase = PhaseResult.fault →
          opts = [synthetic cfg ("webdriver-error".data)]) := by
  cases nav with
  | fault => exact absurd rfl h
  | timeout =>
    refine ⟨[synthetic cfg ("timeout".data)], rfl, by simp, ?_, fun _ => rfl, ?_, ?_⟩
    · intro o ho
      rw [List.mem_singleton] at ho
      subst ho
      right; right; left; rfl
    · intro hx
      simp at hx
    · intro hx
      simp at hx
  | ok =>
    cases phase with
    | timeout =>
      refine ⟨[synthetic cfg ("missing-price".data)], rfl, by simp, ?_, ?_,
        fun _ _ => rfl, ?_⟩
      · intro o ho
        rw [List.mem_singleton] at ho
        subst ho
        right; left; rfl
      · intro hx
        simp at hx
      · intro _ hx
        simp at hx
    | fault =>
      refine ⟨[synthetic cfg ("webdriver-error".data)], rfl, by simp, ?_, ?_, ?_,
        fun _ _ => rfl⟩
      · intro o ho
        rw [List.mem_singleton] at ho
        subst ho
        right; right; right; rfl
      · intro hx
        simp at hx
      · intro _ hx
        simp at hx
    | page pg =>
      by_cases hc : (locate_flight_cards pg).isEmpty = true
      · have hfetch : fetch_return_flights cfg ⟨NavResult.ok, PhaseResult.page pg⟩
            = Except.ok [⟨if page_fallback_price pg = [] then none
                  else some (page_fallback_price pg),
                [], [], cfg.currency,
                if page_fallback_price pg = [] then "missing-price".data else "ok".data,
                cfg.depart_date⟩] := by
          simp only [fetch_return_flights, hc, if_true]
        refine ⟨_, hfetch, by simp, ?_, ?_, ?_, ?_⟩
        · intro o ho
          rw [List.mem_singleton] at ho
          subst ho
          by_cases hpt : page_fallback_price pg = [] <;> simp [hpt]
        · intro hx
          simp at hx
        · intro _ hx
          simp at hx
        · intro _ hx
          simp at hx
      · rw [Bool.not_eq_true] at hc
        have hfetch : fetch_return_flights cfg ⟨NavResult.ok, PhaseResult.page pg⟩
            = Except.ok (reassign_dates cfg
                ((locate_flight_cards pg).map (assembleCard cfg))) := by
          simp only [fetch_return_flights, hc, Bool.false_eq_true, if_false]
        refine ⟨_, hfetch, ?_, ?_, ?_, ?_, ?_⟩
        · rw [reassign_length, List.length_map, List.length_pos]
          intro hnil
          rw [hnil] at hc
          exact absurd hc (by simp)
        · intro o ho
          obtain ⟨p, hp, _, _, h3⟩ := mem_reassign cfg _ o ho
          obtain ⟨card, _, rfl⟩ := List.mem_map.mp hp
          rw [h3]
          rcases (assembleCard_fields cfg card).2.2 with h4 | h4
          · left; exact h4
          · right; left; exact h4
        · intro hx
          simp at hx
        · intro _ hx
          simp at hx
        · intro _ hx
          simp at hx

/-- Claim C3, witness: the navigation-timeout behavior at a concrete
configuration. -/
theorem c3_fetch_containment_witness :
    ∃ opts, fetch_return_flights cfg0 ⟨NavResult.timeout, PhaseResult.timeout⟩
        = Except.ok opts
      ∧ 0 < opts.length
      ∧ (∀ o ∈ opts, o.status = "ok".data ∨ o.status = "missing-price".data
          ∨ o.status = "timeout".data ∨ o.status = "webdriver-error".data)
      ∧ (NavResult.timeout = NavResult.timeout → opts = [synthetic cfg0 ("timeout".data)])
      ∧ (NavResult.timeout = NavResult.ok → PhaseResult.timeout = PhaseResult.timeout →
          opts = [synthetic cfg0 ("missing-price".data)])
      ∧ (NavResult.timeout = NavResult.ok → PhaseResult.timeout = PhaseResult.fault →
          opts = [synthetic cfg0 ("webdriver-error".data)]) :=
  c3_fetch_containment cfg0 NavResult.timeout PhaseResult.timeout (fun hx => nomatch hx)

/-- Claim C7, counterexample: a page with no flight cards but with a
page-level element matching the first price selector whose text `hello` is
not a currency amount.  `fetch_return_flights` returns that text as the
price with status `ok`, although the §4.2 regex extraction over the whole
page body text yields nothing — so the price is not obtained by the
page-wide regex extraction, contrary to the claim. -/
theorem c7_no_cards_cex :
    fetch_return_flights cfg0 ⟨NavResult.ok, PhaseResult.page pg0⟩
      = Except.ok [⟨some ("hello".data), [], [], cfg0.currency, "ok".data,
          cfg0.depart_date⟩]
  ∧ extract_price_from_text (extract_element_text bodyElem) = []
  ∧ some ("hello".data) ≠ (none : Option Str) :=
  ⟨rfl, rfl, fun hx => Option.noConfusion hx⟩

/-- Claim C7 (amended): whenever no flight-card selector candidate yields
any element, `fetch_return_flights` returns exactly one FlightOption with
empty times and `flightDate = departDate`, whose price text comes first
from the page-wide price-selector chain and, only if that chain yields
nothing, from the §4.2 regex extraction against the whole page body text;
the status is `ok` exactly when the resulting text is non-empty, else
`missing-price`. -/
theorem c7_no_cards_amended (cfg : SearchConfig) (pg : PageModel)
    (h : locate_flight_cards pg = []) :
    fetch_return_flights cfg ⟨NavResult.ok, PhaseResult.page pg⟩
      = Except.ok [⟨if page_fallback_price pg = [] then none
            else some (page_fallback_price pg),
          [], [], cfg.currency,
          if page_fallback_price pg = [] then "missing-price".data else "ok".data,
          cfg.depart_date⟩]
  ∧ (extract_page_text pg price_selectors ≠ [] →
      page_fallback_price pg = extract_page_text pg price_selectors)
  ∧ (extract_page_text pg price_selectors = [] →
      page_fallback_price pg = (match pg.body with
        | none => []
        | some b => extract_price_from_text (extract_element_text b))) := by
  have hc : (locate_flight_cards pg).isEmpty = true := by
    rw [h]
    rfl
  refine ⟨by simp only [fetch_return_flights, hc, if_true], ?_, ?_⟩
  · intro hne
    unfold page_fallback_price
    rw [if_neg hne]
  · intro he
    unfold page_fallback_price
    rw [if_pos he]

/-- Claim C7, witness: the amended no-cards behavior at the concrete page
`pg0`. -/
theorem c7_no_cards_witness :
    fetch_return_flights cfg0 ⟨NavResult.ok, PhaseResult.page pg0⟩
      = Except.ok [⟨if page_fallback_price pg0 = [] then none
            else some (page_fallback_price pg0),
          [], [], cfg0.currency,
          if page_fallback_price pg0 = [] then "missing-price".data else "ok".data,
          cfg0.depart_date⟩]
  ∧ (extract_page_text pg0 price_selectors ≠ [] →
      page_fallback_price pg0 = extract_page_text pg0 price_selectors)
  ∧ (extract_page_text pg0 price_selectors = [] →
      page_fallback_price pg0 = (match pg0.body with
        | none => []
        | some b => extract_price_from_text (extract_element_text b))) :=
  c7_no_cards_amended cfg0 pg0 rfl

/-- Claim C10: every FlightOption in a list returned by
`fetch_return_flights` carries the SearchConfig's currency, and its price
is a present non-empty string exactly when its status is `ok`. -/
theorem c10_fetch_invariants (cfg : SearchConfig) (env : FetchEnv)
    (opts : List FlightOption)
    (h : fetch_return_flights cfg env = Except.ok opts) :
    ∀ o ∈ opts, o.currency = cfg.currency
      ∧ ((∃ p, o.price = some p ∧ p ≠ []) ↔ o.status = "ok".data) := by
  obtain ⟨nav, phase⟩ := env
  cases nav with
  | fault => exact absurd h (fun hx => Except.noConfusion hx)
  | timeout =>
    have hopts : [synthetic cfg ("timeout".data)] = opts := by
      injection h
    subst hopts
    intro o ho
    rw [List.mem_singleton] at ho
    subst ho
    refine ⟨rfl, ?_, ?_⟩
    · rintro ⟨p, hp, -⟩
      cases hp
    · intro hbad
      exact absurd hbad (show ¬ (("timeout".data : Str) = "ok".data) by decide)
  | ok =>
    cases phase with
    | timeout =>
      have hopts : [synthetic cfg ("missing-price".data)] = opts := by
        injection h
      subst hopts
      intro o ho
      rw [List.mem_singleton] at ho
      subst ho
      refine ⟨rfl, ?_, ?_⟩
      · rintro ⟨p, hp, -⟩
        cases hp
      · intro hbad
        exact absurd hbad (show ¬ (("missing-price".data : Str) = "ok".data) by decide)
    | fault =>
      have hopts : [synthetic cfg ("webdriver-error".data)] = opts := by
        injection h
      subst hopts
      intro o ho
      rw [List.mem_singleton] at ho
      subst ho
      refine ⟨rfl, ?_, ?_⟩
      · rintro ⟨p, hp, -⟩
        cases hp
      · intro hbad
        exact absurd hbad (show ¬ (("webdriver-error".data : Str) = "ok".data) by decide)
    | page pg =>
      by_cases hc : (locate_flight_cards pg).isEmpty = true
      · have hfetch : fetch_return_flights cfg ⟨NavResult.ok, PhaseResult.page pg⟩
            = Except.ok [⟨if page_fallback_price pg = [] then none
                  else some (page_fallback_price pg),
                [], [], cfg.currency,
                if page_fallback_price pg = [] then "missing-price".data else "ok".data,
                cfg.depart_date⟩] := by
          simp only [fetch_return_flights, hc, if_true]
        rw [hfetch] at h
        have hopts := (Except.ok.injEq _ _).mp h
        subst hopts
        intro o ho
        rw [List.mem_singleton] at ho
        subst ho
        exact ⟨rfl, (price_status_shape (page_fallback_price pg) _ _ rfl rfl).1⟩
      · rw [Bool.not_eq_true] at hc
        have hfetch : fetch_return_flights cfg ⟨NavResult.ok, PhaseResult.page pg⟩
            = Except.ok (reassign_dates cfg
                ((locate_flight_cards pg).map (assembleCard cfg))) := by
          simp only [fetch_return_flights, hc, Bool.false_eq_true, if_false]
        rw [hfetch] at h
        have hopts := (Except.ok.injEq _ _).mp h
        subst hopts
        intro o ho
        obtain ⟨p, hp, h1, h2, h3⟩ := mem_reassign cfg _ o ho
        obtain ⟨card, _, rfl⟩ := List.mem_map.mp hp
        rw [h1, h2, h3]
        exact ⟨(assembleCard_fields cfg card).1, (assembleCard_fields cfg card).2.1⟩

/-- Claim C10, witness: the invariant read off the synthetic timeout
record at a concrete configuration. -/
theorem c10_fetch_invariants_witness :
    (synthetic cfg0 ("timeout".data)).currency = cfg0.currency
  ∧ ((∃ p, (synthetic cfg0 ("timeout".data)).price = some p ∧ p ≠ [])
      ↔ (synthetic cfg0 ("timeout".data)).status = "ok".data) :=
  c10_fetch_invariants cfg0 ⟨NavResult.timeout, PhaseResult.timeout⟩
    [synthetic cfg0 ("timeout".data)] rfl (synthetic cfg0 ("timeout".data))
    (List.mem_singleton.mpr rfl)

end Ryantrak
